import Mathlib

/-!
Shallow embedding of the task/project management backend
(repository `dynamic-task-manager-mean`).

Sources embedded here:
  - `src/backend/models/Task.js` (schema constraints, pre-save hook)
  - `src/backend/models/Project.js` (schema constraints, pre-save hook)
  - `src/backend/routes/projects.js` (project routes)
  - `src/unnamed/part_000` (task routes, dashboard analytics)

Conventions: ObjectIds are `Nat`; timestamps are `Int` milliseconds;
Mongo documents are Lean structures; route handlers are functions
returning `Except`; a returned error corresponds to an HTTP error
response, which performs no database mutation.
-/

namespace TaskManager

/-- Enum of `taskSchema.status` (Task.js line 45). -/
inductive TaskStatus
  | todo
  | inProgress
  | review
  | completed
  | cancelled
deriving DecidableEq, Repr

/-- Enum of `taskSchema.priority` and `projectSchema.priority`. -/
inductive TaskPriority
  | low
  | medium
  | high
  | urgent
deriving DecidableEq, Repr

/-- Parsing of the wire string for a task status; `none` models a value
rejected by the `isIn` validator and by the schema enum. -/
def parseStatus : String → Option TaskStatus
  | "todo" => some .todo
  | "in-progress" => some .inProgress
  | "review" => some .review
  | "completed" => some .completed
  | "cancelled" => some .cancelled
  | _ => none

/-- Parsing of the wire string for a priority. -/
def parsePriority : String → Option TaskPriority
  | "low" => some .low
  | "medium" => some .medium
  | "high" => some .high
  | "urgent" => some .urgent
  | _ => none

/-- Whitespace test of the JavaScript string `trim`. -/
def isWs (c : Char) : Bool :=
  c == ' ' || c == '\t' || c == '\n' || c == '\r'

/-- The JavaScript string `trim`, applied by the mongoose `trim`
setters of the schemas. -/
def trimStr (s : String) : String :=
  String.mk (((s.toList.dropWhile isWs).reverse.dropWhile isWs).reverse)

/-- Label sub-document of a task (Task.js lines 71-83). -/
structure TaskLabel where
  name : String
  color : String := "#757575"
deriving DecidableEq, Repr

/-- Hex digit test used by the color regex of the schemas. -/
def hexDigit (c : Char) : Bool :=
  c.isDigit || (97 ≤ c.toLower.toNat && c.toLower.toNat ≤ 102)

/-- Match of the schema color pattern (a hash sign followed by 6 or 3 hex digits). -/
def isHexColor (s : String) : Bool :=
  match s.toList with
  | c :: rest => c.toNat == 35 && (rest.length == 6 || rest.length == 3) && rest.all hexDigit
  | [] => false

/-- Schema validity of one label: required trimmed name of at most 30
characters and a color matching the hex pattern. -/
def labelValid (l : TaskLabel) : Bool :=
  l.name ≠ "" && l.name.length ≤ 30 && isHexColor l.color

/-- Task document (Task.js lines 31-176); default field values are the
schema defaults. Sub-documents not touched by any claim (comments,
subtasks, dependencies, time tracking, attachments, watchers) are
omitted. -/
structure Task where
  id : Nat
  title : String
  description : String := ""
  status : TaskStatus := .todo
  priority : TaskPriority := .medium
  project : Nat
  assignee : Option Nat := none
  reporter : Nat
  labels : List TaskLabel := []
  dueDate : Option Int := none
  estimatedHours : Option Int := none
  actualHours : Int := 0
  progress : Int := 0
  completedAt : Option Int := none
  isArchived : Bool := false
  createdAt : Int := 0
  updatedAt : Int := 0
deriving DecidableEq, Repr

/-- Mongoose document validation of a task, run by `save()` before the
pre-save hook (Task.js field constraints: required trimmed title of at
most 200 characters, description at most 2000, `estimatedHours` and
`actualHours` in [0,1000], `progress` in [0,100], valid labels). -/
def schemaValid (t : Task) : Bool :=
  t.title ≠ "" && t.title.length ≤ 200 &&
  t.description.length ≤ 2000 &&
  (match t.estimatedHours with
   | some h => decide (0 ≤ h) && decide (h ≤ 1000)
   | none => true) &&
  decide (0 ≤ t.actualHours) && decide (t.actualHours ≤ 1000) &&
  decide (0 ≤ t.progress) && decide (t.progress ≤ 100) &&
  t.labels.all labelValid

/-- Pre-save hook of the task schema (Task.js lines 202-215).
`statusModified` is the value of `this.isModified(.status.)` at save
time: whether the update assigned `status` a value different from the
stored one (always true on a new document). -/
def taskPreSave (statusModified : Bool) (now : Int) (t : Task) : Task :=
  let t1 :=
    if statusModified = true ∧ t.status = .completed ∧ t.completedAt = none then
      { t with completedAt := some now, progress := 100 }
    else t
  if statusModified = true ∧ t1.status ≠ .completed ∧ t1.completedAt ≠ none then
    { t1 with completedAt := none }
  else t1

/-- Body of a `PUT /api/tasks/:id` request (part_000 lines 212-217):
each field of `updateFields` that may be present. Status and priority
arrive as wire strings, still to be checked against their enums. -/
structure UpdateBody where
  title : Option String := none
  description : Option String := none
  assignee : Option (Option Nat) := none
  priority : Option String := none
  status : Option String := none
  dueDate : Option (Option Int) := none
  estimatedHours : Option (Option Int) := none
  progress : Option Int := none
  labels : Option (List TaskLabel) := none
deriving Repr

/-- Express-validator layer of `PUT /api/tasks/:id` (part_000 lines
187-191): optional non-empty title, priority and status in their enums.
Returns the names of every violated field. The `dueDate` ISO-format
check is not representable on the numeric timestamp model and is
therefore always satisfied here. -/
def putValidatorErrors (b : UpdateBody) : List String :=
  (match b.title with
   | some s => if s = "" then ["title"] else []
   | none => []) ++
  (match b.priority with
   | some p => if (parsePriority p).isNone then ["priority"] else []
   | none => []) ++
  (match b.status with
   | some s => if (parseStatus s).isNone then ["status"] else []
   | none => [])

/-- Assignment of the present body fields onto the stored task
(part_000 lines 212-217); string setters apply the schema `trim`. -/
def applyFields (t : Task) (b : UpdateBody) : Task :=
  { t with
    title := (b.title.map trimStr).getD t.title
    description := (b.description.map trimStr).getD t.description
    assignee := b.assignee.getD t.assignee
    priority := (b.priority.bind parsePriority).getD t.priority
    status := (b.status.bind parseStatus).getD t.status
    dueDate := b.dueDate.getD t.dueDate
    estimatedHours := b.estimatedHours.getD t.estimatedHours
    progress := b.progress.getD t.progress
    labels := b.labels.getD t.labels }

/-- Value of `isModified(.status.)` after the route applied the body:
mongoose marks the path modified only when the assigned value differs
from the stored one. -/
def statusModified (t : Task) (b : UpdateBody) : Bool :=
  match b.status.bind parseStatus with
  | some s => decide (s ≠ t.status)
  | none => false

/-- Outcome of a task mutation: a 400 response listing the violated
fields, or the 500 response produced when `save()` throws (the route
catch block turns a mongoose validation failure into a generic server
error). -/
inductive UpdateError
  | validation (fields : List String)
  | server
deriving DecidableEq, Repr

/-- Handler core of `PUT /api/tasks/:id` (part_000 lines 187-241) after
the not-found and project-access guards: express-validator first, then
field assignment, then `save()` (document validation followed by the
pre-save hook). An error leaves the stored task unchanged. -/
def putTask (t : Task) (b : UpdateBody) (now : Int) : Except UpdateError Task :=
  if putValidatorErrors b = [] then
    let t1 := applyFields t b
    if schemaValid t1 then
      .ok (taskPreSave (statusModified t b) now { t1 with updatedAt := now })
    else .error .server
  else .error (.validation (putValidatorErrors b))

/-- Handler core of `POST /api/tasks` (part_000 lines 119-182) after
validation and access guards: the document is built with the schema
defaults, then saved. On a new document every set path counts as
modified, so the pre-save hook runs with `statusModified` true. -/
def createTask (id : Nat) (title description : String) (project : Nat)
    (assignee : Option Nat) (reporter : Nat) (priority : TaskPriority)
    (status : TaskStatus) (dueDate : Option Int) (estimatedHours : Option Int)
    (labels : List TaskLabel) (now : Int) : Except UpdateError Task :=
  let t0 : Task :=
    { id := id
      title := trimStr title
      description := trimStr description
      status := status
      priority := priority
      project := project
      assignee := assignee
      reporter := reporter
      dueDate := dueDate
      estimatedHours := estimatedHours
      labels := labels
      createdAt := now
      updatedAt := now }
  if schemaValid t0 then .ok (taskPreSave true now t0) else .error .server

/-- Tasks reachable through the persisted API: a successful create
followed by any sequence of successful saved updates. -/
inductive TaskReachable : Task → Prop
  | created (id : Nat) (title description : String) (project : Nat)
      (assignee : Option Nat) (reporter : Nat) (priority : TaskPriority)
      (status : TaskStatus) (dueDate : Option Int) (estimatedHours : Option Int)
      (labels : List TaskLabel) (now : Int) (t : Task)
      (h : createTask id title description project assignee reporter priority
            status dueDate estimatedHours labels now = .ok t) :
      TaskReachable t
  | updated (t : Task) (b : UpdateBody) (now : Int) (t' : Task)
      (hr : TaskReachable t) (h : putTask t b now = .ok t') :
      TaskReachable t'

/-- Role of a project member (Project.js line 48). -/
inductive MemberRole
  | owner
  | admin
  | member
  | viewer
deriving DecidableEq, Repr

/-- Member entry of a project (Project.js lines 40-55). -/
structure ProjectMember where
  user : Nat
  role : MemberRole := .member
  joinedAt : Int
deriving DecidableEq, Repr

/-- Enum of `projectSchema.status` (Project.js line 17). -/
inductive ProjectStatus
  | planning
  | active
  | onHold
  | completed
  | cancelled
deriving DecidableEq, Repr

/-- Parsing of the wire string for a project status. -/
def parseProjectStatus : String → Option ProjectStatus
  | "planning" => some .planning
  | "active" => some .active
  | "on-hold" => some .onHold
  | "completed" => some .completed
  | "cancelled" => some .cancelled
  | _ => none

/-- Project document (Project.js lines 3-111); defaults are the schema
defaults. The budget and settings sub-documents are not touched by any
claim and are omitted. -/
structure Project where
  id : Nat
  name : String
  description : String := ""
  status : ProjectStatus := .planning
  priority : TaskPriority := .medium
  deadline : Option Int := none
  owner : Nat
  members : List ProjectMember := []
  tags : List String := []
  color : String := "#2196F3"
  progress : Int := 0
  isArchived : Bool := false
  createdAt : Int := 0
deriving DecidableEq, Repr

/-- Mongoose document validation of a project (Project.js field
constraints: required trimmed name of at most 100 characters,
description at most 500, tags at most 30, hex color, progress in
[0,100]). -/
def projectSchemaValid (p : Project) : Bool :=
  p.name ≠ "" && p.name.length ≤ 100 &&
  p.description.length ≤ 500 &&
  p.tags.all (fun tg => tg.length ≤ 30) &&
  isHexColor p.color &&
  decide (0 ≤ p.progress) && decide (p.progress ≤ 100)

/-- Pre-save hook of the project schema (Project.js lines 141-157): on
a new document only, the owner is appended to `members` with role
`owner` when not already present. -/
def projectPreSave (isNew : Bool) (now : Int) (p : Project) : Project :=
  if isNew = true ∧ ¬ p.members.any (fun m => m.user == p.owner) then
    { p with members := p.members ++ [{ user := p.owner, role := .owner, joinedAt := now }] }
  else p

/-- Authorization check repeated in the project routes: the actor is
the owner or an admin member (projects.js lines 130-133). -/
def canManageProject (u : Nat) (p : Project) : Bool :=
  p.owner == u || p.members.any (fun m => m.user == u && m.role == MemberRole.admin)

/-- Authorization check for read access: the actor is the owner or any
member (projects.js lines 50-51). -/
def canAccessProject (u : Nat) (p : Project) : Bool :=
  p.owner == u || p.members.any (fun m => m.user == u)

/-- Outcome of a project route: a 400 validation response, a 400
message response (the conflict cases), 403, 404, or the 500 produced
when `save()` throws. An error response performs no mutation. -/
inductive ProjError
  | validation (fields : List String)
  | badRequest (msg : String)
  | accessDenied
  | notFound
  | server
deriving DecidableEq, Repr

/-- Handler core of `POST /api/projects` (projects.js lines 68-107):
non-empty name check, document built with `members` empty and the
actor as owner, then `save()` (validation, then the pre-save hook on a
new document). -/
def createProject (id actor : Nat) (name description : String)
    (deadline : Option Int) (priority : TaskPriority) (color : String)
    (tags : List String) (now : Int) : Except ProjError Project :=
  if name = "" then .error (.validation ["name"])
  else
    let p0 : Project :=
      { id := id
        name := trimStr name
        description := trimStr description
        deadline := deadline
        priority := priority
        color := color
        tags := tags
        owner := actor
        createdAt := now }
    if projectSchemaValid p0 then .ok (projectPreSave true now p0) else .error .server

/-- Handler core of `POST /api/projects/:id/members` (projects.js lines
195-251) after the not-found guard: the role validator admits only
admin, member and viewer; then the manage-permission check, the
duplicate-member check, the push, and `save()`. -/
def addMember (actor : Nat) (p : Project) (userId : Nat) (role : MemberRole)
    (now : Int) : Except ProjError Project :=
  if role = .owner then .error (.validation ["role"])
  else if ¬ canManageProject actor p = true then .error .accessDenied
  else if p.members.any (fun m => m.user == userId) then
    .error (.badRequest "User is already a member of this project")
  else
    let p1 := { p with members := p.members ++ [{ user := userId, role := role, joinedAt := now }] }
    if projectSchemaValid p1 then .ok (projectPreSave false now p1) else .error .server

/-- Handler core of `DELETE /api/projects/:id/members/:userId`
(projects.js lines 256-290) after the not-found guard: the
manage-permission check, the owner guard, then the filter and
`save()`. -/
def removeMember (actor : Nat) (p : Project) (userId : Nat) (now : Int) :
    Except ProjError Project :=
  if ¬ canManageProject actor p = true then .error .accessDenied
  else if userId == p.owner then .error (.badRequest "Cannot remove project owner")
  else
    let p1 := { p with members := p.members.filter (fun m => ! (m.user == userId)) }
    if projectSchemaValid p1 then .ok (projectPreSave false now p1) else .error .server

/-- Body of a `PUT /api/projects/:id` request (projects.js line 139):
the fields of `updateFields` that may be present. Neither `owner` nor
`members` is in the list. -/
structure ProjectUpdateBody where
  name : Option String := none
  description : Option String := none
  status : Option String := none
  priority : Option String := none
  deadline : Option (Option Int) := none
  color : Option String := none
  tags : Option (List String) := none
  progress : Option Int := none
deriving Repr

/-- Express-validator layer of `PUT /api/projects/:id` (projects.js
lines 112-116). -/
def projectUpdateValidatorErrors (b : ProjectUpdateBody) : List String :=
  (match b.name with
   | some s => if s = "" then ["name"] else []
   | none => []) ++
  (match b.priority with
   | some s => if (parsePriority s).isNone then ["priority"] else []
   | none => []) ++
  (match b.status with
   | some s => if (parseProjectStatus s).isNone then ["status"] else []
   | none => [])

/-- Assignment of the present body fields onto the stored project
(projects.js lines 139-144). -/
def applyProjectFields (p : Project) (b : ProjectUpdateBody) : Project :=
  { p with
    name := (b.name.map trimStr).getD p.name
    description := (b.description.map trimStr).getD p.description
    status := (b.status.bind parseProjectStatus).getD p.status
    priority := (b.priority.bind parsePriority).getD p.priority
    deadline := b.deadline.getD p.deadline
    color := b.color.getD p.color
    tags := b.tags.getD p.tags
    progress := b.progress.getD p.progress }

/-- Handler core of `PUT /api/projects/:id` (projects.js lines 112-161)
after the not-found guard: express-validator first, then the
owner-or-admin check, then the field assignment and `save()`. -/
def updateProject (actor : Nat) (p : Project) (b : ProjectUpdateBody) (now : Int) :
    Except ProjError Project :=
  if projectUpdateValidatorErrors b = [] then
    if ¬ canManageProject actor p = true then .error .accessDenied
    else
      let p1 := applyProjectFields p b
      if projectSchemaValid p1 then .ok (projectPreSave false now p1) else .error .server
  else .error (.validation (projectUpdateValidatorErrors b))

/-- Projects reachable through the persisted API: a successful create
followed by any sequence of successful member additions, member
removals and updates. -/
inductive ProjReachable : Project → Prop
  | created (id actor : Nat) (name description : String) (deadline : Option Int)
      (priority : TaskPriority) (color : String) (tags : List String) (now : Int)
      (p : Project)
      (h : createProject id actor name description deadline priority color tags now = .ok p) :
      ProjReachable p
  | memberAdded (actor : Nat) (p : Project) (userId : Nat) (role : MemberRole)
      (now : Int) (p' : Project) (hr : ProjReachable p)
      (h : addMember actor p userId role now = .ok p') :
      ProjReachable p'
  | memberRemoved (actor : Nat) (p : Project) (userId : Nat) (now : Int)
      (p' : Project) (hr : ProjReachable p)
      (h : removeMember actor p userId now = .ok p') :
      ProjReachable p'
  | updated (actor : Nat) (p : Project) (b : ProjectUpdateBody) (now : Int)
      (p' : Project) (hr : ProjReachable p)
      (h : updateProject actor p b now = .ok p') :
      ProjReachable p'

/-- Membership invariant of claim C3: the owner appears in `members`
exactly once, and that entry carries role `owner`. -/
def ownerMemberOnce (p : Project) : Prop :=
  p.members.countP (fun m => m.user == p.owner) = 1 ∧
  ∀ m ∈ p.members, m.user = p.owner → m.role = MemberRole.owner

instance (p : Project) : Decidable (ownerMemberOnce p) := by
  unfold ownerMemberOnce
  exact instDecidableAnd

/-- User document (referenced by the analytics `$lookup` into the
`users` collection). -/
structure User where
  id : Nat
  firstName : String
  lastName : String
deriving DecidableEq, Repr

/-- Persisted collections read by the routes. -/
structure Store where
  users : List User := []
  projects : List Project := []
  tasks : List Task := []
deriving Repr

/-- Lookup by id in the `projects` collection (`Project.findById`). -/
def findProject (pid : Nat) (s : Store) : Option Project :=
  s.projects.find? (fun p => p.id == pid)

/-- Lookup by id in the `tasks` collection (`Task.findById`). -/
def findTask (tid : Nat) (s : Store) : Option Task :=
  s.tasks.find? (fun t => t.id == tid)

/-- Lookup by id in the `users` collection. -/
def findUser (uid : Nat) (s : Store) : Option User :=
  s.users.find? (fun u => u.id == uid)

/-- HTTP-level error of the store-scoped routes. -/
inductive HErr
  | notFound
  | accessDenied
  | server
deriving DecidableEq, Repr

/-- Handler of `DELETE /api/projects/:id` (projects.js lines 166-190):
not-found guard, owner-only guard, then `Task.deleteMany` on the
project reference followed by the project deletion. The whole store is
returned so that the error cases exhibit the unchanged state. -/
def deleteProjectRoute (actor pid : Nat) (s : Store) : Except HErr Unit × Store :=
  match findProject pid s with
  | none => (.error .notFound, s)
  | some p =>
    if p.owner == actor then
      (.ok (), { s with
        tasks := s.tasks.filter (fun t => ! (t.project == pid))
        projects := s.projects.filter (fun q => ! (q.id == pid)) })
    else (.error .accessDenied, s)

/-- Handler of `GET /api/tasks/:id` (part_000 lines 85-114): not-found
guard, then the access check against the task project. A dangling
project reference would make the handler throw, hence the server
case. -/
def getTaskRoute (actor tid : Nat) (s : Store) : Except HErr Task :=
  match findTask tid s with
  | none => .error .notFound
  | some t =>
    match findProject t.project s with
    | none => .error .server
    | some p => if canAccessProject actor p then .ok t else .error .accessDenied

/-- Ids of the projects accessible to a user: the `Project.find` query
of the task routes (owner or member, part_000 lines 44-51). -/
def accessibleProjectIds (u : Nat) (s : Store) : List Nat :=
  (s.projects.filter (fun p => p.owner == u || p.members.any (fun m => m.user == u))).map
    (fun p => p.id)

/-- Query string of `GET /api/tasks` (part_000 lines 12-17). Numeric
parameters are already parsed; status and priority arrive as wire
strings. -/
structure TaskQuery where
  page : Option Nat := none
  limit : Option Nat := none
  status : Option String := none
  priority : Option String := none
  project : Option Nat := none
  assignee : Option Nat := none
  search : Option String := none
deriving Repr

/-- Express-validator layer of `GET /api/tasks` (part_000 lines 12-17):
positive page, limit in [1,100], status and priority in their enums.
The MongoId format check on `project` is not representable on the
numeric id model. -/
def listValidatorErrors (q : TaskQuery) : List String :=
  (match q.page with
   | some n => if n < 1 then ["page"] else []
   | none => []) ++
  (match q.limit with
   | some n => if n < 1 || 100 < n then ["limit"] else []
   | none => []) ++
  (match q.status with
   | some s => if (parseStatus s).isNone then ["status"] else []
   | none => []) ++
  (match q.priority with
   | some s => if (parsePriority s).isNone then ["priority"] else []
   | none => [])

/-- Containment of a character list in another, used to model the
case-insensitive `$regex` search. -/
def charsContain (hay needle : List Char) : Bool :=
  match hay with
  | [] => needle.isEmpty
  | c :: rest => List.isPrefixOf needle (c :: rest) || charsContain rest needle

/-- Case-insensitive substring test (the `$regex` with option `i` of
part_000 lines 37-40, restricted to literal search strings). -/
def iContains (hay pat : String) : Bool :=
  charsContain (hay.toList.map Char.toLower) (pat.toList.map Char.toLower)

/-- Filter built by `GET /api/tasks` (part_000 lines 30-52). The
`project` condition taken from the query at line 34 is overwritten at
line 52 by the accessible-projects restriction, so the query value
never constrains the result and only the `$in` clause remains. -/
def taskListPred (projIds : List Nat) (q : TaskQuery) (t : Task) : Bool :=
  !t.isArchived &&
  (match q.status.bind parseStatus with
   | some st => t.status == st
   | none => true) &&
  (match q.priority.bind parsePriority with
   | some pr => t.priority == pr
   | none => true) &&
  (match q.assignee with
   | some a => t.assignee == some a
   | none => true) &&
  (match q.search with
   | some str => iContains t.title str || iContains t.description str
   | none => true) &&
  projIds.contains t.project

/-- Insertion of a task into a list sorted by a key, descending. -/
def insertDescBy (key : Task → Int) (t : Task) : List Task → List Task
  | [] => [t]
  | h :: rest =>
    if key h < key t then t :: h :: rest else h :: insertDescBy key t rest

/-- Sorting of a task list by a key, descending (the Mongo `sort` with
value -1). -/
def sortDescBy (key : Task → Int) : List Task → List Task
  | [] => []
  | h :: rest => insertDescBy key h (sortDescBy key rest)

/-- Response shape of `GET /api/tasks` (part_000 lines 65-74). -/
structure TaskListResponse where
  tasks : List Task
  current : Nat
  pages : Nat
  total : Nat
  hasNext : Bool
  hasPrev : Bool
deriving DecidableEq, Repr

/-- Handler of `GET /api/tasks` (part_000 lines 12-80): validation,
filter construction including the overwrite of the `project` condition,
sort by creation time descending, skip and limit, and the pagination
header computed with the ceiling division of `Math.ceil`. -/
def listTasks (u : Nat) (q : TaskQuery) (s : Store) : Except UpdateError TaskListResponse :=
  if listValidatorErrors q = [] then
    let page := q.page.getD 1
    let limit := q.limit.getD 10
    let skip := (page - 1) * limit
    let matched := s.tasks.filter (taskListPred (accessibleProjectIds u s) q)
    let sorted := sortDescBy Task.createdAt matched
    let total := matched.length
    let pages := (total + limit - 1) / limit
    .ok
      { tasks := (sorted.drop skip).take limit
        current := page
        pages := pages
        total := total
        hasNext := page < pages
        hasPrev := 1 < page }
  else .error (.validation (listValidatorErrors q))

/-- Enumeration of the task statuses, for the `$group` on status. -/
def allStatuses : List TaskStatus :=
  [.todo, .inProgress, .review, .completed, .cancelled]

/-- Enumeration of the priorities, for the `$group` on priority. -/
def allPriorities : List TaskPriority :=
  [.low, .medium, .high, .urgent]

/-- Result of the `$group` by status (part_000 lines 349-352): one
bucket per status value present in the scoped set, with its count. -/
def groupCountByStatus (l : List Task) : List (TaskStatus × Nat) :=
  (allStatuses.map (fun st => (st, l.countP (fun t => t.status == st)))).filter
    (fun x => x.2 ≠ 0)

/-- Result of the `$group` by priority (part_000 lines 355-358). -/
def groupCountByPriority (l : List Task) : List (TaskPriority × Nat) :=
  (allPriorities.map (fun pr => (pr, l.countP (fun t => t.priority == pr)))).filter
    (fun x => x.2 ≠ 0)

/-- Result of the `$group` by assignee joined with the user name
(part_000 lines 361-367): one entry per distinct assignee of the scoped
set; the `$unwind` drops assignees with no matching user record. -/
def groupCountByAssignee (l : List Task) (s : Store) : List (Nat × Nat × String) :=
  ((l.filterMap Task.assignee).dedup).filterMap (fun a =>
    match findUser a s with
    | some u => some (a, l.countP (fun t => t.assignee == some a), u.firstName ++ " " ++ u.lastName)
    | none => none)

/-- Length of the trailing recent-activity window: 7 days in
milliseconds. -/
def weekMs : Int := 7 * 86400000

/-- Response shape of `GET /api/tasks/analytics/dashboard` (part_000
lines 390-397). -/
structure DashboardResponse where
  statusStats : List (TaskStatus × Nat)
  priorityStats : List (TaskPriority × Nat)
  assigneeStats : List (Nat × Nat × String)
  overdueTasks : Nat
  recentActivity : List Task
  totalTasks : Nat
deriving Repr

/-- Handler of `GET /api/tasks/analytics/dashboard` (part_000 lines
336-397). Every aggregate matches on the accessible projects; all of
them except `recentActivity` also match `isArchived` false — the
recent-activity query (lines 381-388) has no archived condition. -/
def dashboard (u : Nat) (now : Int) (s : Store) : DashboardResponse :=
  let projectIds := accessibleProjectIds u s
  { statusStats :=
      groupCountByStatus (s.tasks.filter (fun t => projectIds.contains t.project && !t.isArchived))
    priorityStats :=
      groupCountByPriority (s.tasks.filter (fun t => projectIds.contains t.project && !t.isArchived))
    assigneeStats :=
      groupCountByAssignee
        (s.tasks.filter (fun t => projectIds.contains t.project && !t.isArchived && t.assignee.isSome)) s
    overdueTasks :=
      s.tasks.countP (fun t => projectIds.contains t.project && !t.isArchived &&
        (match t.dueDate with
         | some d => decide (d < now)
         | none => false) &&
        !(t.status == TaskStatus.completed))
    recentActivity :=
      (sortDescBy Task.updatedAt
        (s.tasks.filter (fun t => projectIds.contains t.project &&
          decide (now - weekMs ≤ t.updatedAt)))).take 10
    totalTasks :=
      (s.tasks.filter (fun t => projectIds.contains t.project && !t.isArchived)).length }

/-- Concrete task as produced by `createTask 1 "T" "" 1 none 1 .medium
.todo none none [] 0`. -/
def exTaskA : Task :=
  { id := 1, title := "T", project := 1, reporter := 1 }

/-- Concrete task after completing `exTaskA` at time 1. -/
def exTaskB : Task :=
  { id := 1, title := "T", project := 1, reporter := 1, status := .completed,
    progress := 100, completedAt := some 1, updatedAt := 1 }

/-- Concrete task after lowering the progress of `exTaskB` to 50 at
time 2: still completed, `completedAt` still set. -/
def exTaskC : Task :=
  { id := 1, title := "T", project := 1, reporter := 1, status := .completed,
    progress := 50, completedAt := some 1, updatedAt := 2 }

/-- Concrete task after saving `exTaskC` with a body whose status field
is the string completed, at time 3: the path is not modified, the hook
does not run, progress stays 50. -/
def exTaskD : Task :=
  { id := 1, title := "T", project := 1, reporter := 1, status := .completed,
    progress := 50, completedAt := some 1, updatedAt := 3 }

/-- Concrete task after moving `exTaskB` back to todo at time 4. -/
def exTaskE : Task :=
  { id := 1, title := "T", project := 1, reporter := 1, status := .todo,
    progress := 100, completedAt := none, updatedAt := 4 }

/-- Concrete project as produced by `createProject 1 2 "P" "" none
.medium "#2196F3" [] 0`. -/
def exProjA : Project :=
  { id := 1, name := "P", owner := 2,
    members := [{ user := 2, role := .owner, joinedAt := 0 }] }

/-- Concrete project for the cascade-delete example: owner 1. -/
def exProj5 : Project :=
  { id := 1, name := "P", owner := 1,
    members := [{ user := 1, role := .owner, joinedAt := 0 }] }

/-- Concrete task of `exProj5`. -/
def exTask5 : Task :=
  { id := 10, title := "T", project := 1, reporter := 1 }

/-- Concrete store for the cascade-delete example. -/
def exStore5 : Store :=
  { projects := [exProj5], tasks := [exTask5] }

/-- Two concrete projects of the same owner, for the list-filter
example. -/
def exProj6a : Project :=
  { id := 1, name := "A", owner := 1,
    members := [{ user := 1, role := .owner, joinedAt := 0 }] }

/-- Second project of the list-filter example. -/
def exProj6b : Project :=
  { id := 2, name := "B", owner := 1,
    members := [{ user := 1, role := .owner, joinedAt := 0 }] }

/-- Concrete task living in project 2, for the list-filter example. -/
def exTask6 : Task :=
  { id := 10, title := "T", project := 2, reporter := 1 }

/-- Concrete store for the list-filter example. -/
def exStore6 : Store :=
  { projects := [exProj6a, exProj6b], tasks := [exTask6] }

/-- Concrete project for the dashboard example: owner 1. -/
def exProj7 : Project :=
  { id := 1, name := "P", owner := 1,
    members := [{ user := 1, role := .owner, joinedAt := 0 }] }

/-- Concrete archived task updated at time 100, for the dashboard
example. -/
def exTask7 : Task :=
  { id := 10, title := "T", project := 1, reporter := 1,
    isArchived := true, updatedAt := 100 }

/-- Concrete store for the dashboard example. -/
def exStore7 : Store :=
  { projects := [exProj7], tasks := [exTask7] }

theorem taskPreSave_false (now : Int) (t : Task) : taskPreSave false now t = t := by
  simp [taskPreSave]

theorem taskPreSave_true_iff (now : Int) (t : Task) :
    ((taskPreSave true now t).completedAt ≠ none ↔
      (taskPreSave true now t).status = TaskStatus.completed) := by
  by_cases hs : t.status = TaskStatus.completed <;> by_cases hc : t.completedAt = none <;>
    simp [taskPreSave, hs, hc]

theorem applyFields_status_of_not_modified (t : Task) (b : UpdateBody)
    (h : statusModified t b = false) : (applyFields t b).status = t.status := by
  unfold statusModified at h
  unfold applyFields
  cases hbs : b.status.bind parseStatus with
  | none => simp [hbs]
  | some st =>
    rw [hbs] at h
    simp only [decide_eq_false_iff_not, not_not] at h
    simp [hbs, h]

theorem completedAt_iff_of_reachable {t : Task} (h : TaskReachable t) :
    (t.completedAt ≠ none ↔ t.status = TaskStatus.completed) := by
  induction h with
  | created id title description project assignee reporter priority status dueDate
      estimatedHours labels now t h =>
    unfold createTask at h
    simp only [] at h
    split at h
    · simp only [Except.ok.injEq] at h
      subst h
      exact taskPreSave_true_iff _ _
    · exact absurd h (by simp)
  | updated t b now t' hr h ih =>
    unfold putTask at h
    simp only [] at h
    split at h
    · split at h
      · simp only [Except.ok.injEq] at h
        subst h
        cases hm : statusModified t b
        · rw [taskPreSave_false]
          have hst : (applyFields t b).status = t.status :=
            applyFields_status_of_not_modified t b hm
          show ((applyFields t b).completedAt ≠ none ↔ (applyFields t b).status = _)
          rw [hst]
          exact ih
        · exact taskPreSave_true_iff _ _
      · exact absurd h (by simp)
    · exact absurd h (by simp)

/-- Claim C1: for every task reachable through a create followed by any
sequence of saved updates, `completedAt` is non-null exactly when the
status is `completed`; the pre-save hook sets it on every transition
into `completed` and clears it on every transition away. -/
theorem task_completedAt_iff_completed (t : Task) (h : TaskReachable t) :
    (t.completedAt ≠ none ↔ t.status = TaskStatus.completed) :=
  completedAt_iff_of_reachable h

/-- Witness for C1 at a concrete reachable task. -/
theorem task_completedAt_iff_completed_witness :
    (exTaskB.completedAt ≠ none ↔ exTaskB.status = TaskStatus.completed) :=
  task_completedAt_iff_completed exTaskB
    (TaskReachable.updated exTaskA { status := some "completed" } 1 exTaskB
      (TaskReachable.created 1 "T" "" 1 none 1 .medium .todo none none [] 0 exTaskA rfl)
      rfl)

/-- Claim C2 counterexample: `exTaskC` is reachable (created, completed
at time 1, then its progress lowered to 50 by a later update), its
status is `completed`, and a saved update whose body sets status to the
string completed leaves progress at 50, not 100: the hook only fires
when the status path is modified to a different value and `completedAt`
is still unset. -/
theorem putTask_completed_save_keeps_progress_50 :
    TaskReachable exTaskC ∧
    exTaskC.status = TaskStatus.completed ∧
    putTask exTaskC { status := some "completed" } 3 = .ok exTaskD ∧
    exTaskD.progress = 50 ∧ exTaskD.completedAt = some 1 ∧ ¬ exTaskD.progress = 100 := by
  refine ⟨?_, rfl, rfl, rfl, rfl, by decide⟩
  exact TaskReachable.updated exTaskB { progress := some 50 } 2 exTaskC
    (TaskReachable.updated exTaskA { status := some "completed" } 1 exTaskB
      (TaskReachable.created 1 "T" "" 1 none 1 .medium .todo none none [] 0 exTaskA rfl)
      rfl)
    rfl

/-- Claim C2 as amended: for every reachable task whose status is not
yet `completed`, a saved update whose body sets status to `completed`
results in `completedAt` = now and progress exactly 100, regardless of
the prior progress value. -/
theorem putTask_into_completed_sets_progress (t : Task) (b : UpdateBody) (now : Int)
    (t' : Task) (hr : TaskReachable t) (hst : ¬ t.status = TaskStatus.completed)
    (hbs : b.status.bind parseStatus = some TaskStatus.completed)
    (hok : putTask t b now = Except.ok t') :
    t'.completedAt = some now ∧ t'.progress = 100 := by
  have hc : t.completedAt = none := by
    cases hx : t.completedAt with
    | none => rfl
    | some v =>
      exact absurd ((completedAt_iff_of_reachable hr).mp (by simp [hx])) hst
  unfold putTask at hok
  simp only [] at hok
  split at hok
  · split at hok
    · simp only [Except.ok.injEq] at hok
      subst hok
      have hm : statusModified t b = true := by
        unfold statusModified
        rw [hbs]
        exact decide_eq_true (fun he => hst he.symm)
      rw [hm]
      have h2s : (applyFields t b).status = TaskStatus.completed := by
        unfold applyFields
        simp [hbs]
      have h2c : (applyFields t b).completedAt = t.completedAt := rfl
      simp [taskPreSave, h2s, h2c, hc]
    · exact absurd hok (by simp)
  · exact absurd hok (by simp)

/-- Witness for the amended C2 at a concrete transition. -/
theorem putTask_into_completed_sets_progress_witness :
    exTaskB.completedAt = some 1 ∧ exTaskB.progress = 100 :=
  putTask_into_completed_sets_progress exTaskA { status := some "completed" } 1 exTaskB
    (TaskReachable.created 1 "T" "" 1 none 1 .medium .todo none none [] 0 exTaskA rfl)
    (by decide) rfl rfl

/-- Claim C10: for a task with status `completed` and progress 100, a
saved update that moves the status away from `completed` and does not
itself assign progress leaves progress at 100 and only clears
`completedAt`. -/
theorem putTask_away_from_completed_keeps_progress (t : Task) (b : UpdateBody)
    (now : Int) (t' : Task) (st : TaskStatus)
    (hstat : t.status = TaskStatus.completed) (hprog : t.progress = 100)
    (hbp : b.progress = none) (hbs : b.status.bind parseStatus = some st)
    (hs : ¬ st = TaskStatus.completed) (hok : putTask t b now = Except.ok t') :
    t'.progress = 100 ∧ t'.completedAt = none := by
  unfold putTask at hok
  simp only [] at hok
  split at hok
  · split at hok
    · simp only [Except.ok.injEq] at hok
      subst hok
      have hm : statusModified t b = true := by
        unfold statusModified
        rw [hbs]
        exact decide_eq_true (fun he => hs (he.trans hstat))
      rw [hm]
      have h2s : (applyFields t b).status = st := by
        unfold applyFields
        simp [hbs]
      have h2p : (applyFields t b).progress = t.progress := by
        unfold applyFields
        simp [hbp]
      have h2c : (applyFields t b).completedAt = t.completedAt := rfl
      cases hx : t.completedAt with
      | none => simp [taskPreSave, h2s, h2p, h2c, hs, hprog, hx]
      | some v => simp [taskPreSave, h2s, h2p, h2c, hs, hprog, hx]
    · exact absurd hok (by simp)
  · exact absurd hok (by simp)

/-- Witness for C10 at a concrete reopened task. -/
theorem putTask_away_from_completed_keeps_progress_witness :
    exTaskE.progress = 100 ∧ exTaskE.completedAt = none :=
  putTask_away_from_completed_keeps_progress exTaskB { status := some "todo" } 4 exTaskE
    .todo rfl rfl rfl rfl (by decide) rfl

theorem projectPreSave_false (now : Int) (p : Project) : projectPreSave false now p = p := by
  simp [projectPreSave]

/-- Claim C3: for every project reachable through a create followed by
any sequence of successful member additions, member removals and
updates, the owner appears in `members` exactly once and with role
`owner`. -/
theorem project_owner_member_once (p : Project) (h : ProjReachable p) :
    ownerMemberOnce p := by
  induction h with
  | created id actor name description deadline priority color tags now p h =>
    unfold createProject at h
    split at h
    · exact absurd h (by simp)
    · simp only [] at h
      split at h
      · simp only [Except.ok.injEq] at h
        subst h
        simp [ownerMemberOnce, projectPreSave, List.countP_cons]
      · exact absurd h (by simp)
  | memberAdded actor p userId role now p' hr h ih =>
    unfold addMember at h
    split at h
    case isTrue => exact absurd h (by simp)
    case isFalse hrole =>
      split at h
      case isTrue => exact absurd h (by simp)
      case isFalse hmg =>
        split at h
        case isTrue => exact absurd h (by simp)
        case isFalse hdup =>
          simp only [] at h
          split at h
          case isTrue hschema =>
            simp only [Except.ok.injEq] at h
            subst h
            rw [projectPreSave_false]
            have hmem : p.members.any (fun m => m.user == p.owner) = true := by
              rw [List.any_eq_true]
              have hpos : 0 < p.members.countP (fun m => m.user == p.owner) := by
                rw [ih.1]
                exact Nat.one_pos
              exact List.countP_pos_iff.mp hpos
            have hneq : (userId == p.owner) = false := by
              by_contra hcon
              have heq : userId = p.owner := by
                cases hb : (userId == p.owner)
                · exact absurd hb hcon
                · exact eq_of_beq hb
              exact hdup (by rw [heq]; exact hmem)
            constructor
            · show ((p.members ++ _).countP fun m => m.user == p.owner) = 1
              rw [List.countP_append, ih.1]
              simp [List.countP_cons, hneq]
            · intro m hm hu
              rw [List.mem_append] at hm
              cases hm with
              | inl hml => exact ih.2 m hml hu
              | inr hmr =>
                simp only [List.mem_singleton] at hmr
                subst hmr
                exact absurd hu (by simpa using hneq)
          case isFalse => exact absurd h (by simp)
  | memberRemoved actor p userId now p' hr h ih =>
    unfold removeMember at h
    split at h
    case isTrue => exact absurd h (by simp)
    case isFalse hmg =>
      split at h
      case isTrue => exact absurd h (by simp)
      case isFalse hown =>
        simp only [] at h
        split at h
        case isTrue hschema =>
          simp only [Except.ok.injEq] at h
          subst h
          rw [projectPreSave_false]
          have hne : userId ≠ p.owner := by simpa using hown
          constructor
          · show ((p.members.filter fun m => ! (m.user == userId)).countP
                fun m => m.user == p.owner) = 1
            rw [List.countP_filter, ← ih.1]
            apply List.countP_congr
            intro m hm
            by_cases hmu : m.user = p.owner
            · simp [hmu, Ne.symm hne]
            · simp [hmu]
          · intro m hm hu
            exact ih.2 m (List.mem_of_mem_filter hm) hu
        case isFalse => exact absurd h (by simp)
  | updated actor p b now p' hr h ih =>
    unfold updateProject at h
    split at h
    case isTrue =>
      split at h
      case isTrue => exact absurd h (by simp)
      case isFalse hmg =>
        simp only [] at h
        split at h
        case isTrue =>
          simp only [Except.ok.injEq] at h
          subst h
          rw [projectPreSave_false]
          exact ih
        case isFalse => exact absurd h (by simp)
    case isFalse => exact absurd h (by simp)

/-- Witness for C3 at a concrete freshly created project. -/
theorem project_owner_member_once_witness : ownerMemberOnce exProjA :=
  project_owner_member_once exProjA
    (ProjReachable.created 1 2 "P" "" none .medium "#2196F3" [] 0 exProjA rfl)

/-- Claim C4: for every actor authorized to manage the project, a
member removal naming the owner id fails with the cannot-remove-owner
conflict; the error response performs no mutation, so the members list
is unchanged. -/
theorem removeMember_owner_conflict (actor : Nat) (p : Project) (userId : Nat)
    (now : Int) (hmg : canManageProject actor p = true) (he : userId = p.owner) :
    removeMember actor p userId now =
      .error (ProjError.badRequest "Cannot remove project owner") := by
  unfold removeMember
  rw [if_neg (by simp [hmg])]
  rw [if_pos (by simp [he])]

/-- Witness for C4 at a concrete project whose owner removes itself. -/
theorem removeMember_owner_conflict_witness :
    removeMember 2 exProjA 2 5 =
      .error (ProjError.badRequest "Cannot remove project owner") :=
  removeMember_owner_conflict 2 exProjA 2 5 rfl rfl

/-- Claim C5: a project deletion by a non-owner fails with access
denied and leaves the store untouched; a deletion by the owner
succeeds, removes every task whose project reference is the deleted
project, and a later task lookup whose id only ever named tasks of
that project answers not-found. -/
theorem deleteProject_cascade (actor pid : Nat) (s : Store) (p : Project)
    (hp : findProject pid s = some p) :
    (¬ actor = p.owner →
      deleteProjectRoute actor pid s = (Except.error HErr.accessDenied, s)) ∧
    (actor = p.owner →
      (deleteProjectRoute actor pid s).1 = Except.ok () ∧
      (∀ t ∈ (deleteProjectRoute actor pid s).2.tasks, ¬ t.project = pid) ∧
      (∀ viewer tid : Nat, (∀ u ∈ s.tasks, u.id = tid → u.project = pid) →
        getTaskRoute viewer tid (deleteProjectRoute actor pid s).2 =
          Except.error HErr.notFound)) := by
  constructor
  · intro hne
    simp only [deleteProjectRoute, hp]
    rw [if_neg (by simp; exact fun he => hne he.symm)]
  · intro heq
    subst heq
    simp only [deleteProjectRoute, hp]
    rw [if_pos (by simp)]
    refine ⟨rfl, ?_, ?_⟩
    · intro t ht
      rw [List.mem_filter] at ht
      simpa using ht.2
    · intro viewer tid hall
      unfold getTaskRoute findTask
      simp only []
      have hnone :
          ((s.tasks.filter fun t => ! (t.project == pid)).find? fun t => t.id == tid) =
            none := by
        rw [List.find?_eq_none]
        intro u hu hid
        rw [List.mem_filter] at hu
        have hup : u.project = pid := hall u hu.1 (by simpa using hid)
        have hnp : ¬ (u.project == pid) = true := by simpa using hu.2
        exact hnp (by simp [hup])
      rw [hnone]

/-- Witness for C5: the non-owner branch and the cascade branch at a
concrete store. -/
theorem deleteProject_cascade_witness :
    deleteProjectRoute 2 1 exStore5 = (Except.error HErr.accessDenied, exStore5) ∧
    getTaskRoute 3 10 (deleteProjectRoute 1 1 exStore5).2 = Except.error HErr.notFound :=
  ⟨(deleteProject_cascade 2 1 exStore5 exProj5 rfl).1 (by decide),
   ((deleteProject_cascade 1 1 exStore5 exProj5 rfl).2 rfl).2.2 3 10 (by decide)⟩

/-- Claim C6 exhibit: the caller owns projects 1 and 2 and queries the
task list with the filter `project = 1`, yet the response contains the
task of project 2. Line 34 of the route stores the query value in
`filter.project` and line 52 unconditionally overwrites it with the
accessible-projects clause, so the supplied project filter is
discarded. -/
theorem listTasks_ignores_project_filter :
    listTasks 1 { project := some 1 } exStore6 =
      .ok { tasks := [exTask6], current := 1, pages := 1, total := 1,
            hasNext := false, hasPrev := false } ∧
    exTask6.project = 2 :=
  ⟨rfl, rfl⟩

theorem mem_insertDescBy (key : Task → Int) (t x : Task) (l : List Task) :
    x ∈ insertDescBy key t l ↔ x = t ∨ x ∈ l := by
  induction l with
  | nil => simp [insertDescBy]
  | cons h rest ih =>
    unfold insertDescBy
    split
    · simp [or_comm, or_assoc, or_left_comm]
    · simp [ih]
      tauto

theorem mem_sortDescBy (key : Task → Int) (x : Task) (l : List Task) :
    x ∈ sortDescBy key l ↔ x ∈ l := by
  induction l with
  | nil => simp [sortDescBy]
  | cons h rest ih =>
    unfold sortDescBy
    rw [mem_insertDescBy, ih]
    simp

/-- Claim C7 counterexample: in a store holding one archived task of an
accessible project, updated inside the trailing week, the dashboard
recent-activity list contains that archived task even though every
other statistic of the same response excludes it (the total is 0). The
recent-activity query of part_000 lines 381-388 has no `isArchived`
condition. -/
theorem dashboard_recent_includes_archived :
    (dashboard 1 100 exStore7).recentActivity = [exTask7] ∧
    exTask7.isArchived = true ∧
    (dashboard 1 100 exStore7).totalTasks = 0 :=
  ⟨rfl, rfl, rfl⟩

/-- Claim C7 as amended: the count statistics of the dashboard consider
only non-archived tasks of the accessible projects, while the
recent-activity list is restricted to accessible projects and to the
trailing 7-day window but not to non-archived tasks. -/
theorem dashboard_scope (u : Nat) (now : Int) (s : Store) :
    (dashboard u now s).totalTasks =
      s.tasks.countP
        (fun t => (accessibleProjectIds u s).contains t.project && !t.isArchived) ∧
    (dashboard u now s).overdueTasks =
      s.tasks.countP (fun t => (accessibleProjectIds u s).contains t.project &&
        !t.isArchived &&
        (match t.dueDate with
         | some d => decide (d < now)
         | none => false) &&
        !(t.status == TaskStatus.completed)) ∧
    ∀ t ∈ (dashboard u now s).recentActivity,
      (accessibleProjectIds u s).contains t.project = true ∧
      now - weekMs ≤ t.updatedAt := by
  refine ⟨(List.countP_eq_length_filter _ _).symm, rfl, ?_⟩
  intro t ht
  have hmem : t ∈ s.tasks.filter (fun t => (accessibleProjectIds u s).contains t.project &&
      decide (now - weekMs ≤ t.updatedAt)) := by
    have h1 := List.take_subset 10 _ ht
    rwa [mem_sortDescBy] at h1
  rw [List.mem_filter] at hmem
  have h2 := hmem.2
  rw [Bool.and_eq_true] at h2
  exact ⟨h2.1, of_decide_eq_true h2.2⟩

/-- Witness for the amended C7 at the concrete dashboard store. -/
theorem dashboard_scope_witness :
    (accessibleProjectIds 1 exStore7).contains exTask7.project = true ∧
    (100 : Int) - weekMs ≤ exTask7.updatedAt :=
  (dashboard_scope 1 100 exStore7).2.2 exTask7 (by decide)

theorem sum_snd_filter_ne_zero {α : Type} (l : List (α × Nat)) :
    ((l.filter fun x => x.2 ≠ 0).map Prod.snd).sum = (l.map Prod.snd).sum := by
  induction l with
  | nil => rfl
  | cons x xs ih =>
    rw [List.filter_cons]
    by_cases h : x.2 = 0
    · rw [if_neg (by simp [h])]
      rw [ih]
      simp [h]
    · rw [if_pos (by simp [h])]
      simp only [List.map_cons, List.sum_cons]
      rw [ih]

theorem countP_status_sum (l : List Task) :
    ((allStatuses.map fun st => (st, l.countP fun t => t.status == st)).map Prod.snd).sum
      = l.length := by
  induction l with
  | nil => rfl
  | cons t ts ih =>
    simp only [allStatuses, List.map_cons, List.map_nil, List.sum_cons, List.sum_nil,
      List.countP_cons, List.length_cons] at ih ⊢
    cases ht : t.status <;> simp [ht] <;> omega

/-- Claim C8: the per-status counts of the dashboard status
distribution sum to the total count of non-archived tasks of the same
accessible-project scope. -/
theorem statusStats_sum (u : Nat) (now : Int) (s : Store) :
    (((dashboard u now s).statusStats).map Prod.snd).sum = (dashboard u now s).totalTasks := by
  show ((groupCountByStatus (s.tasks.filter fun t =>
      (accessibleProjectIds u s).contains t.project && !t.isArchived)).map Prod.snd).sum =
    (s.tasks.filter fun t =>
      (accessibleProjectIds u s).contains t.project && !t.isArchived).length
  unfold groupCountByStatus
  rw [sum_snd_filter_ne_zero, countP_status_sum]

/-- Claim C9 counterexample: an update whose only present field is
`progress = 150` (outside the schema range [0,100]) is rejected by the
`save()` of the route as a generic 500 server error, not as a
validation error listing the violated field: the express-validator
layer of the route checks no numeric range, and the route catch block
maps the mongoose validation failure to the opaque server error. -/
theorem putTask_range_violation_not_validation :
    putTask exTaskA { progress := some 150 } 5 = .error UpdateError.server ∧
    UpdateError.server ≠ UpdateError.validation ["progress"] :=
  ⟨rfl, by decide⟩

/-- Claim C9 as amended: an update with a violating present field is
always rejected and the stored task left unchanged; violations of the
request-validator constraints (empty title, unknown priority or status)
produce a validation error listing every violated validator field,
while schema-level violations (length or numeric-range constraints
checked at save time) are rejected as a generic server error. -/
theorem putTask_rejects_invalid_updates (t : Task) (b : UpdateBody) (now : Int) :
    (¬ putValidatorErrors b = [] →
      putTask t b now = .error (.validation (putValidatorErrors b))) ∧
    (putValidatorErrors b = [] → schemaValid (applyFields t b) = false →
      putTask t b now = .error .server) := by
  constructor
  · intro h
    unfold putTask
    rw [if_neg h]
  · intro h1 h2
    unfold putTask
    rw [if_pos h1]
    simp only []
    rw [if_neg (by simp [h2])]

/-- Witness for the amended C9: one update violating two validator
constraints, one update violating the schema progress range. -/
theorem putTask_rejects_invalid_updates_witness :
    putTask exTaskA { title := some "", priority := some "urgentest" } 6 =
      .error (.validation ["title", "priority"]) ∧
    putTask exTaskA { progress := some 150 } 7 = .error .server :=
  ⟨(putTask_rejects_invalid_updates exTaskA
      { title := some "", priority := some "urgentest" } 6).1 (by decide),
   (putTask_rejects_invalid_updates exTaskA { progress := some 150 } 7).2 rfl rfl⟩

end TaskManager
